import Mathlib

/-!
# Kaia Wallet Tracker — verification of the tracked-address change-detection engine

Shallow embedding of `src/main.py` (the only source file of the repository).

Modelling conventions:

* Transaction timestamps. The feed's `datetime` field is an ISO-8601 string
  (e.g. `2024-01-01T00:00:00Z`).  The poller compares timestamps after
  `datetime.fromisoformat(s.replace('Z', '+00:00'))` and sorts by the raw
  string; for the feed's uniform second-precision format the lexicographic
  order of the strings coincides with the chronological order of the parsed
  instants, so both are modelled by one `Nat` field (`Tx.time`), the parsed
  instant.
* `list.sort` (Python) is a stable comparison sort; it is modelled with
  `List.insertionSort`.  Every property used here (sortedness of the output
  and being a permutation of the input) holds of any comparison sort.
* The SQLite table `tracked_addresses` is modelled as a list of rows; SQL
  `=` on `TEXT` columns is binary (case-sensitive) comparison, modelled by
  `String` equality.
* Network calls and the dispatch of a Telegram message are oracles given as
  explicit inputs (a fetched page; a success predicate `ok` covering the
  whole per-transaction `try` block of lines 209–226: render, send and the
  checkpoint `UPDATE`/`commit`).
-/

/-- A transaction as the change-detection loop sees it: the
`transaction_hash` field and the parsed `datetime` field. -/
structure Tx where
  transaction_hash : String
  time : Nat
deriving DecidableEq, Repr

/-- A stored checkpoint: the row's `last_transaction_hash` and (parsed)
`last_transaction_time` columns. -/
structure Checkpoint where
  hash : String
  time : Nat
deriving DecidableEq, Repr

/-- The checkpoint the poller commits after processing `tx`
(lines 217–223: `SET last_transaction_hash = tx_hash, last_transaction_time
= tx['datetime']`). -/
def Tx.toCp (tx : Tx) : Checkpoint :=
  ⟨tx.transaction_hash, tx.time⟩

/-- The filter predicate of lines 197–202:
`tx['transaction_hash'] != last_hash and parse(tx['datetime']) > parse(last_time)`. -/
def isNew (cp : Checkpoint) (tx : Tx) : Bool :=
  tx.transaction_hash != cp.hash && decide (cp.time < tx.time)

/-- Sort order used at line 205: `new_transactions.sort(key=lambda x: x['datetime'])`. -/
def txLE (a b : Tx) : Prop := a.time ≤ b.time

instance : DecidableRel txLE := fun a b => Nat.decLe a.time b.time
instance : IsTotal Tx txLE := ⟨fun a b => Nat.le_total a.time b.time⟩
instance : IsTrans Tx txLE := ⟨fun _ _ _ h h' => Nat.le_trans h h'⟩

/-- Lines 196–205 of `check_new_transactions`: filter the fetched page
against the stored checkpoint, then sort ascending by timestamp. -/
def newTransactions (cp : Checkpoint) (page : List Tx) : List Tx :=
  List.insertionSort txLE (page.filter (isNew cp))

/-- The per-transaction loop of lines 207–226.  `ok tx = true` means the
`try` block for `tx` ran to completion (message formatted, sent, checkpoint
committed); `ok tx = false` means some step raised, the exception was caught
at line 225 and neither a delivery nor a checkpoint write happened for `tx`.
Returns the checkpoint stored after the loop and the list of transactions
that were delivered (each delivery is immediately followed by the commit of
`tx.toCp`). -/
def processNew (ok : Tx → Bool) : Checkpoint → List Tx → Checkpoint × List Tx
  | cp, [] => (cp, [])
  | cp, tx :: rest =>
    if ok tx then
      let next := processNew ok tx.toCp rest
      (next.1, tx :: next.2)
    else
      processNew ok cp rest

/-- One sweep iteration for one tracked row (lines 183–226): fetch `page`,
filter and sort against the row's checkpoint `cp`, process each new
transaction.  Returns the row's checkpoint after the sweep and the
transactions delivered, in delivery order. -/
def sweepAddress (ok : Tx → Bool) (page : List Tx) (cp : Checkpoint) : Checkpoint × List Tx :=
  processNew ok cp (newTransactions cp page)

/-- The page `check_new_transactions` fetches for an address (line 184):
`page=1&size=20`, i.e. the 20 most recent transactions of the newest-first
full history. -/
def feedPage (history : List Tx) : List Tx :=
  history.take 20

/-- The inputs of one sweep iteration for a row: the page the feed returned
and the success oracle for render/dispatch/commit of each transaction. -/
structure Sweep where
  page : List Tx
  ok : Tx → Bool

/-- A sequence of sweeps over one tracked row, threading the row's stored
checkpoint from each sweep to the next (each sweep re-reads the row at line
178). Returns the final checkpoint and the per-sweep delivery lists. -/
def runSweeps (cp : Checkpoint) : List Sweep → Checkpoint × List (List Tx)
  | [] => (cp, [])
  | s :: rest =>
    let r := sweepAddress s.ok s.page cp
    let next := runSweeps r.1 rest
    (next.1, r.2 :: next.2)

/-- All checkpoints committed during a run, in commit order: every delivered
transaction is immediately followed by the commit of its own checkpoint
(lines 214–223), so the commit trace is the concatenated delivery lists
mapped to checkpoints. -/
def commitTrace (cp : Checkpoint) (ss : List Sweep) : List Checkpoint :=
  ((runSweeps cp ss).2.flatten).map Tx.toCp

/-! ## Basic lemmas about the detector and the per-address sweep -/

theorem mem_newTransactions_iff (cp : Checkpoint) (page : List Tx) (tx : Tx) :
    tx ∈ newTransactions cp page ↔
      tx ∈ page ∧ tx.transaction_hash ≠ cp.hash ∧ cp.time < tx.time := by
  unfold newTransactions
  rw [List.mem_insertionSort, List.mem_filter]
  unfold isNew
  constructor
  · rintro ⟨hmem, hnew⟩
    simp only [Bool.and_eq_true, bne_iff_ne, decide_eq_true_eq] at hnew
    exact ⟨hmem, hnew.1, hnew.2⟩
  · rintro ⟨hmem, hhash, htime⟩
    refine ⟨hmem, ?_⟩
    simp only [Bool.and_eq_true, bne_iff_ne, decide_eq_true_eq]
    exact ⟨hhash, htime⟩

theorem newTransactions_sorted (cp : Checkpoint) (page : List Tx) :
    List.Pairwise txLE (newTransactions cp page) :=
  List.sorted_insertionSort txLE _

theorem processNew_snd (ok : Tx → Bool) (cp : Checkpoint) (txs : List Tx) :
    (processNew ok cp txs).2 = txs.filter ok := by
  induction txs generalizing cp with
  | nil => rfl
  | cons tx rest ih =>
    by_cases h : ok tx
    · simp [processNew, h, List.filter_cons, ih]
    · simp only [Bool.not_eq_true] at h
      simp [processNew, h, List.filter_cons, ih]

theorem processNew_fst (ok : Tx → Bool) (cp : Checkpoint) (txs : List Tx) :
    (processNew ok cp txs).1 = ((txs.filter ok).map Tx.toCp).getLastD cp := by
  induction txs generalizing cp with
  | nil => rfl
  | cons tx rest ih =>
    by_cases h : ok tx
    · rw [List.filter_cons_of_pos h, List.map_cons, List.getLastD_cons]
      simp only [processNew, h, if_true]
      exact ih tx.toCp
    · have h' : ok tx = false := by simpa using h
      rw [List.filter_cons_of_neg (by simp [h'])]
      simp only [processNew, h', Bool.false_eq_true, if_false]
      exact ih cp

theorem sweepAddress_snd (ok : Tx → Bool) (page : List Tx) (cp : Checkpoint) :
    (sweepAddress ok page cp).2 = (newTransactions cp page).filter ok :=
  processNew_snd ok cp _

theorem sweepAddress_delivered_sorted (ok : Tx → Bool) (page : List Tx) (cp : Checkpoint) :
    List.Pairwise txLE (sweepAddress ok page cp).2 := by
  rw [sweepAddress_snd]
  exact List.Pairwise.sublist (List.filter_sublist _) (newTransactions_sorted cp page)

theorem sweepAddress_delivered_isNew (ok : Tx → Bool) (page : List Tx) (cp : Checkpoint)
    (tx : Tx) (h : tx ∈ (sweepAddress ok page cp).2) :
    tx ∈ page ∧ tx.transaction_hash ≠ cp.hash ∧ cp.time < tx.time := by
  rw [sweepAddress_snd] at h
  exact (mem_newTransactions_iff cp page tx).1 (List.mem_of_mem_filter h)

/-! ## getLastD helpers -/

theorem getLastD_mem_cons {α : Type} (l : List α) (a : α) : l.getLastD a ∈ a :: l := by
  induction l generalizing a with
  | nil => simp [List.getLastD]
  | cons b t ih =>
    rw [List.getLastD_cons]
    exact List.mem_cons_of_mem a (ih b)

theorem getLastD_append {α : Type} (a b : List α) (x : α) :
    (a ++ b).getLastD x = b.getLastD (a.getLastD x) := by
  induction a generalizing x with
  | nil => rfl
  | cons h t ih =>
    rw [List.cons_append, List.getLastD_cons, List.getLastD_cons, ih]

theorem le_getLastD_of_mem : ∀ {l : List Nat}, List.Pairwise (· ≤ ·) l →
    ∀ {y : Nat}, y ∈ l → ∀ d : Nat, y ≤ l.getLastD d := by
  intro l
  induction l with
  | nil => intro _ y hy; exact absurd hy (List.not_mem_nil y)
  | cons a t ih =>
    intro hp y hy d
    rw [List.pairwise_cons] at hp
    rw [List.getLastD_cons]
    rcases List.mem_cons.1 hy with rfl | hyt
    · rcases List.mem_cons.1 (getLastD_mem_cons t y) with heq | hmem
      · exact Nat.le_of_eq heq.symm
      · exact hp.1 _ hmem
    · exact ih hp.2 hyt a

theorem getLastD_time_map (l : List Tx) (cp : Checkpoint) :
    ((l.map Tx.toCp).getLastD cp).time = (l.map Tx.time).getLastD cp.time := by
  induction l generalizing cp with
  | nil => rfl
  | cons a t ih =>
    rw [List.map_cons, List.map_cons, List.getLastD_cons, List.getLastD_cons]
    exact ih a.toCp

/-! ## Checkpoint-time monotonicity of sweeps -/

theorem sweep_times_pairwise (ok : Tx → Bool) (page : List Tx) (cp : Checkpoint) :
    List.Pairwise (· ≤ ·) (cp.time :: ((sweepAddress ok page cp).2.map Tx.time)) := by
  rw [List.pairwise_cons]
  constructor
  · intro t ht
    obtain ⟨tx, htx, rfl⟩ := List.mem_map.1 ht
    exact Nat.le_of_lt (sweepAddress_delivered_isNew ok page cp tx htx).2.2
  · exact (sweepAddress_delivered_sorted ok page cp).map Tx.time (fun a b h => h)

theorem sweepAddress_fst_time (ok : Tx → Bool) (page : List Tx) (cp : Checkpoint) :
    (sweepAddress ok page cp).1.time
      = ((sweepAddress ok page cp).2.map Tx.time).getLastD cp.time := by
  have h1 : (sweepAddress ok page cp).1
      = (((newTransactions cp page).filter ok).map Tx.toCp).getLastD cp :=
    processNew_fst ok cp _
  rw [h1, ← sweepAddress_snd ok page cp, getLastD_time_map]

theorem sweepAddress_time_le (ok : Tx → Bool) (page : List Tx) (cp : Checkpoint) :
    cp.time ≤ (sweepAddress ok page cp).1.time := by
  rw [sweepAddress_fst_time]
  have hp := sweep_times_pairwise ok page cp
  rw [List.pairwise_cons] at hp
  rcases List.mem_cons.1
      (getLastD_mem_cons ((sweepAddress ok page cp).2.map Tx.time) cp.time) with heq | hmem
  · exact Nat.le_of_eq heq.symm
  · exact hp.1 _ hmem

theorem runSweeps_times (ss : List Sweep) : ∀ cp : Checkpoint,
    List.Pairwise (· ≤ ·) (cp.time :: (((runSweeps cp ss).2.flatten).map Tx.time))
    ∧ (runSweeps cp ss).1.time
        = (((runSweeps cp ss).2.flatten).map Tx.time).getLastD cp.time := by
  induction ss with
  | nil => intro cp; exact ⟨List.pairwise_singleton _ _, rfl⟩
  | cons s rest ih =>
    intro cp
    have hrun : runSweeps cp (s :: rest)
        = ((runSweeps (sweepAddress s.ok s.page cp).1 rest).1,
           (sweepAddress s.ok s.page cp).2
             :: (runSweeps (sweepAddress s.ok s.page cp).1 rest).2) := rfl
    set r := sweepAddress s.ok s.page cp with hr
    set A := r.2.map Tx.time with hA
    set B := ((runSweeps r.1 rest).2.flatten).map Tx.time with hB
    have hflat : ((runSweeps cp (s :: rest)).2.flatten).map Tx.time = A ++ B := by
      rw [hrun]; simp [List.flatten_cons, List.map_append, hA, hB]
    have P1 : List.Pairwise (· ≤ ·) (cp.time :: A) := sweep_times_pairwise s.ok s.page cp
    obtain ⟨P2, E2⟩ := ih r.1
    have E1 : r.1.time = A.getLastD cp.time := sweepAddress_fst_time s.ok s.page cp
    constructor
    · rw [hflat]
      have : cp.time :: (A ++ B) = (cp.time :: A) ++ B := rfl
      rw [this, List.pairwise_append]
      refine ⟨P1, (List.pairwise_cons.1 P2).2, ?_⟩
      intro u hu v hv
      have hu' : u ≤ (cp.time :: A).getLastD 0 := le_getLastD_of_mem P1 hu 0
      rw [List.getLastD_cons, ← E1] at hu'
      exact Nat.le_trans hu' ((List.pairwise_cons.1 P2).1 v hv)
    · rw [hflat, getLastD_append, ← E1, hrun]
      exact E2

/-! ## Duplicate suppression across sweeps -/

theorem committed_time_le_fst (ok : Tx → Bool) (page : List Tx) (cp : Checkpoint)
    (c : Checkpoint) (hc : c ∈ (sweepAddress ok page cp).2.map Tx.toCp) :
    c.time ≤ (sweepAddress ok page cp).1.time := by
  obtain ⟨tx, htx, rfl⟩ := List.mem_map.1 hc
  rw [sweepAddress_fst_time]
  have hp := sweep_times_pairwise ok page cp
  rw [List.pairwise_cons] at hp
  exact le_getLastD_of_mem hp.2 (List.mem_map_of_mem Tx.time htx) cp.time

theorem runSweeps_no_hash (H : String) (tH : Nat) :
    ∀ (ss : List Sweep) (cp : Checkpoint), tH ≤ cp.time →
      (∀ s ∈ ss, ∀ tx ∈ s.page, tx.transaction_hash = H → tx.time = tH) →
      ∀ sent ∈ (runSweeps cp ss).2, ∀ tx ∈ sent, tx.transaction_hash ≠ H := by
  intro ss
  induction ss with
  | nil =>
    intro cp _ _ sent hsent
    exact absurd hsent (List.not_mem_nil _)
  | cons s rest ih =>
    intro cp hle hfeed sent hsent tx htx hH
    have hrun : (runSweeps cp (s :: rest)).2
        = (sweepAddress s.ok s.page cp).2
          :: (runSweeps (sweepAddress s.ok s.page cp).1 rest).2 := rfl
    rw [hrun] at hsent
    rcases List.mem_cons.1 hsent with rfl | hrest
    · obtain ⟨hpage, _, hgt⟩ := sweepAddress_delivered_isNew s.ok s.page cp tx htx
      have heq : tx.time = tH := hfeed s (List.mem_cons_self s rest) tx hpage hH
      exact absurd hgt (by omega)
    · exact ih (sweepAddress s.ok s.page cp).1
        (Nat.le_trans hle (sweepAddress_time_le s.ok s.page cp))
        (fun s' hs' => hfeed s' (List.mem_cons_of_mem s hs'))
        sent hrest tx htx hH

/-! ## The tracked-address store -/

/-- A row of the `tracked_addresses` table (lines 24–33).  The
`last_transaction_time` column (a `TEXT` ISO timestamp) is modelled parsed,
as in `Tx`. -/
structure Row where
  user_id : Nat
  address : String
  label : String
  last_transaction_hash : String
  last_transaction_time : Nat
deriving DecidableEq, Repr

/-- The `tracked_addresses` table. -/
abbrev Store := List Row

/-- `INSERT OR REPLACE` on primary key `(user_id, address)` (lines 113–118):
the conflicting row, if any, is deleted and the new row inserted. -/
def upsertRow (store : Store) (r : Row) : Store :=
  store.filter (fun q => !(q.user_id == r.user_id && q.address == r.address)) ++ [r]

/-- `add_tracked_address` (lines 86–122).  The seed request
(`page=1&size=1`) is an explicit input: `Except.error ()` models the request
raising — the `except` at line 120 catches it, nothing is persisted and
`False` is returned; `Except.ok (status200, results)` models a completed
request with its status flag and decoded `results` list.  `now` models
`datetime.now(timezone.utc)`. -/
def add_tracked_address (store : Store) (user_id : Nat) (address : String)
    (label : Option String) (feed : Except Unit (Bool × List (String × Nat)))
    (now : Nat) : Store × Bool :=
  match feed with
  | .error _ => (store, false)
  | .ok (status200, results) =>
    let seed : String × Nat :=
      if status200 then
        match results with
        | (h, t) :: _ => (h, t)
        | [] => ("NO_TRANSACTIONS", now)
      else ("NO_TRANSACTIONS", now)
    let lbl :=
      match label with
      | some l => if l = "" then address else l
      | none => address
    (upsertRow store ⟨user_id, address, lbl, seed.1, seed.2⟩, true)

/-- `list_tracked_addresses` (lines 125–135):
`SELECT address, label FROM tracked_addresses WHERE user_id = ?`. -/
def list_tracked_addresses (store : Store) (user_id : Nat) : List (String × String) :=
  (store.filter (fun r => r.user_id == user_id)).map (fun r => (r.address, r.label))

/-- The row predicate of the `DELETE` at lines 141–144:
`user_id = ? AND (address = ? OR label = ?)`.  SQLite compares `TEXT` with
the binary collation, i.e. exact case-sensitive string equality. -/
def removeMatches (user_id : Nat) (identifier : String) (r : Row) : Bool :=
  r.user_id == user_id && (r.address == identifier || r.label == identifier)

/-- `remove_tracked_address` (lines 137–151): delete every matching row of
the subscriber, return `rowcount > 0`. -/
def remove_tracked_address (store : Store) (user_id : Nat) (identifier : String) :
    Store × Bool :=
  (store.filter (fun r => !(removeMatches user_id identifier r)),
   decide (0 < (store.filter (removeMatches user_id identifier)).length))

/-- The checkpoint `UPDATE` of lines 217–223: overwrite both checkpoint
columns of every row with key `(user_id, address)`; the second component is
the number of rows the `UPDATE` touched (zero when the row is gone). -/
def advance_checkpoint (store : Store) (user_id : Nat) (address : String)
    (h : String) (t : Nat) : Store × Nat :=
  (store.map (fun r =>
      if r.user_id == user_id && r.address == address then
        { r with last_transaction_hash := h, last_transaction_time := t }
      else r),
   (store.filter (fun r => r.user_id == user_id && r.address == address)).length)

/-! ## The notification formatter -/

/-- A raw transaction as `parse_transaction_details` (lines 39–84) reads it:
exactly the fields it extracts from the decoded JSON object.  `Option`
marks the fields read with `.get(key, default)`; the others are indexed
unconditionally. -/
structure RawTx where
  transaction_hash : String
  datetime : String
  from_address : String
  to_address : String
  transaction_type : Option String
  amount : Option String
  transaction_fee : Option String
  signature : Option String
deriving DecidableEq, Repr

/-- Lines 48–49:
`datetime.fromisoformat(transaction['datetime'].replace('Z', '+00:00')).strftime("%Y-%m-%d %H:%M:%S UTC")`
modelled for the feed's second-precision ISO-8601 strings
(`YYYY-MM-DDTHH:MM:SS` optionally followed by `Z` or an offset):
`fromisoformat` keeps the 19-character wall-clock prefix and `strftime`
prints it with the `T` separator as a space and ` UTC` appended. -/
def format_time (s : String) : String :=
  String.mk ((s.data.take 19).map (fun c => if c = 'T' then ' ' else c)) ++ " UTC"

/-- `"\n".join(...)` at line 84. -/
def joinNL : List String → String
  | [] => ""
  | [x] => x
  | x :: xs => x ++ "\n" ++ joinNL xs

/-- The third element of `message_parts` (lines 68–82): the multi-line
f-string with time, hash, sender, recipient, kind, amount, fee, method and
deep link, with the defaults of lines 55–58 for the optional fields. -/
def txBody (transaction : RawTx) : String :=
  "\n📅 Time: " ++ format_time transaction.datetime ++
  "\n🔗 Transaction Hash: " ++ transaction.transaction_hash ++
  "\n📤 From: " ++ transaction.from_address ++
  "\n📥 To: " ++ transaction.to_address ++
  "\n\nDetails:\n- Type: " ++ transaction.transaction_type.getD "Unknown" ++
  "\n- Amount: " ++ transaction.amount.getD "0" ++
  " KAIA\n- Transaction Fee: " ++ transaction.transaction_fee.getD "0" ++
  " KAIA\n- Method: " ++ transaction.signature.getD "N/A" ++
  "\n\nKaiascan Link: https://kaiascan.io/tx/" ++ transaction.transaction_hash ++ "\n"

/-- `parse_transaction_details` (lines 39–84).  Returns the formatted
message and the transaction hash.  Python's `if label:` is false both for
`None` and for the empty string. -/
def parse_transaction_details (transaction : RawTx) (label : Option String) :
    String × String :=
  let header := "🚨 [New Transaction Detected] 🚨"
  let labelPart : List String :=
    match label with
    | some l => if l = "" then [] else ["📍 Wallet: " ++ l]
    | none => []
  (joinNL ([header] ++ labelPart ++ [txBody transaction]), transaction.transaction_hash)

/-- `needle` occurs as a contiguous substring of `hay`. -/
abbrev ContainsStr (hay needle : String) : Prop :=
  needle.data <:+: hay.data

theorem containsStr_appL (a b n : String) (h : ContainsStr a n) : ContainsStr (a ++ b) n := by
  obtain ⟨s, t, hst⟩ := h
  exact ⟨s, t ++ b.data, by rw [String.data_append, ← hst]; simp [List.append_assoc]⟩

theorem containsStr_appR (a b n : String) (h : ContainsStr b n) : ContainsStr (a ++ b) n := by
  obtain ⟨s, t, hst⟩ := h
  exact ⟨a.data ++ s, t, by rw [String.data_append, ← hst]; simp [List.append_assoc]⟩

theorem containsStr_self_app (n s : String) : ContainsStr (n ++ s) n := by
  exact ⟨[], s.data, by rw [String.data_append, List.nil_append]⟩

theorem containsStr_refl (n : String) : ContainsStr n n :=
  List.infix_refl n.data

/-! ## Claim theorems -/

/-- C1: the change detection classifies a transaction of the fetched page as
new iff its hash differs from the stored `checkpoint_hash` and its timestamp
is strictly later than the stored `checkpoint_time`; every other transaction
of the page is excluded. -/
theorem detector_new_iff (cp : Checkpoint) (page : List Tx) (tx : Tx) :
    tx ∈ newTransactions cp page ↔
      tx ∈ page ∧ tx.transaction_hash ≠ cp.hash ∧ cp.time < tx.time :=
  mem_newTransactions_iff cp page tx

/-- C2 counterexample: with checkpoint `(H0, 0)` and the newest-first page
`[H2 at 2, H1 at 1]`, the dispatch of `H1` fails while `H2` succeeds.  `H1`
was detected and not delivered, but the sweep's later commit of `H2`
advances the checkpoint to `(H2, 2)`, so the next full sweep (same page,
every dispatch succeeding) neither re-detects nor delivers `H1`: the failed
transaction is skipped, refuting "re-detected and retried on the next full
sweep (no skip)". -/
theorem failed_tx_skipped_counterexample :
    (⟨"H1", 1⟩ : Tx) ∈ newTransactions ⟨"H0", 0⟩ [⟨"H2", 2⟩, ⟨"H1", 1⟩]
    ∧ (⟨"H1", 1⟩ : Tx) ∉
        (sweepAddress (fun tx => tx.transaction_hash != "H1")
          [⟨"H2", 2⟩, ⟨"H1", 1⟩] ⟨"H0", 0⟩).2
    ∧ (sweepAddress (fun tx => tx.transaction_hash != "H1")
          [⟨"H2", 2⟩, ⟨"H1", 1⟩] ⟨"H0", 0⟩).1 = ⟨"H2", 2⟩
    ∧ newTransactions ⟨"H2", 2⟩ [⟨"H2", 2⟩, ⟨"H1", 1⟩] = []
    ∧ (sweepAddress (fun _ => true) [⟨"H2", 2⟩, ⟨"H1", 1⟩] ⟨"H2", 2⟩).2 = [] := by
  decide

/-- C2 (amended): a transaction-level failure does not advance the
checkpoint for that transaction and does not abort the sweep (every other
new transaction that succeeds is still delivered); the failed transaction is
re-detected on a later sweep only when the checkpoint the sweep left behind
still has an older timestamp than, and a different hash from, the failed
transaction — in particular when no other new transaction of the sweep was
committed; otherwise it is skipped. -/
theorem tx_failure_no_advance (ok : Tx → Bool) (page : List Tx) (cp : Checkpoint)
    (f : Tx) (hmem : f ∈ newTransactions cp page) (hfail : ok f = false) :
    f ∉ (sweepAddress ok page cp).2
    ∧ (∀ g ∈ newTransactions cp page, ok g = true → g ∈ (sweepAddress ok page cp).2)
    ∧ ∀ page₂ : List Tx, f ∈ page₂ →
        f.transaction_hash ≠ (sweepAddress ok page cp).1.hash →
        (sweepAddress ok page cp).1.time < f.time →
        f ∈ newTransactions (sweepAddress ok page cp).1 page₂ := by
  refine ⟨?_, ?_, ?_⟩
  · rw [sweepAddress_snd]
    intro hc
    have := (List.mem_filter.1 hc).2
    rw [hfail] at this
    exact Bool.false_ne_true this
  · intro g hg hok
    rw [sweepAddress_snd]
    exact List.mem_filter.2 ⟨hg, hok⟩
  · intro page₂ hp hhash htime
    exact (mem_newTransactions_iff _ _ _).2 ⟨hp, hhash, htime⟩

/-- C2 witness: on the page `[H1 at 1, H2 at 2]` with only `H1`'s dispatch
failing, the amended theorem applies: the sweep still delivers `H2`. -/
theorem tx_failure_no_advance_witness :
    (⟨"H2", 2⟩ : Tx) ∈
      (sweepAddress (fun tx => tx.transaction_hash != "H1")
        [⟨"H1", 1⟩, ⟨"H2", 2⟩] ⟨"H0", 0⟩).2 :=
  (tx_failure_no_advance (fun tx => tx.transaction_hash != "H1")
      [⟨"H1", 1⟩, ⟨"H2", 2⟩] ⟨"H0", 0⟩ ⟨"H1", 1⟩ (by decide) (by decide)).2.1
    ⟨"H2", 2⟩ (by decide) (by decide)

/-- C3: within one sweep the new transactions are re-sorted ascending by
timestamp before processing, so the delivered notifications of an address
are in non-decreasing timestamp order even though the feed page is
newest-first. -/
theorem chronological_delivery (ok : Tx → Bool) (page : List Tx) (cp : Checkpoint) :
    List.Pairwise (fun a b => a.time ≤ b.time) (sweepAddress ok page cp).2 :=
  sweepAddress_delivered_sorted ok page cp

/-- C4: across any sequence of sweeps starting from a stored checkpoint,
every checkpoint commit writes a timestamp at least as recent as the
previous stored `checkpoint_time`: the initial time followed by the time of
every committed checkpoint, in commit order, is monotonically
non-decreasing. -/
theorem checkpoint_time_monotone (cp : Checkpoint) (ss : List Sweep) :
    List.Pairwise (· ≤ ·) (cp.time :: (commitTrace cp ss).map Checkpoint.time) := by
  have h := (runSweeps_times ss cp).1
  have heq : (commitTrace cp ss).map Checkpoint.time
      = ((runSweeps cp ss).2.flatten).map Tx.time := by
    rw [commitTrace, List.map_map]
    rfl
  rw [heq]
  exact h

/-- C5: once a transaction hash `H` (with its immutable feed timestamp
`tH`) has been committed as a row's checkpoint during a sweep, no subsequent
sweep delivers a notification for `H` for that row again. -/
theorem no_duplicate_delivery (ok : Tx → Bool) (page : List Tx) (cp : Checkpoint)
    (H : String) (tH : Nat) (ss : List Sweep)
    (hcommit : (⟨H, tH⟩ : Checkpoint) ∈ (sweepAddress ok page cp).2.map Tx.toCp)
    (hfeed : ∀ s ∈ ss, ∀ tx ∈ s.page, tx.transaction_hash = H → tx.time = tH) :
    ∀ sent ∈ (runSweeps (sweepAddress ok page cp).1 ss).2, ∀ tx ∈ sent,
      tx.transaction_hash ≠ H := by
  have hle : tH ≤ (sweepAddress ok page cp).1.time :=
    committed_time_le_fst ok page cp ⟨H, tH⟩ hcommit
  exact runSweeps_no_hash H tH ss _ hle hfeed

/-- C5 witness: `H1` is committed in the first sweep; the next sweep over a
page still containing `H1` delivers only `H2`, and the theorem applied at
that delivery yields its hash differs from `H1`. -/
theorem no_duplicate_delivery_witness :
    (⟨"H2", 2⟩ : Tx).transaction_hash ≠ "H1" :=
  no_duplicate_delivery (fun _ => true) [⟨"H1", 1⟩] ⟨"H0", 0⟩ "H1" 1
    [⟨[⟨"H2", 2⟩, ⟨"H1", 1⟩], fun _ => true⟩] (by decide) (by decide)
    [⟨"H2", 2⟩] (by decide) ⟨"H2", 2⟩ (by decide)

/-- C6 counterexample: the feed request of a registration fails (non-success
status) at wall-clock time 100.  The row is indeed seeded with the sentinel
and the registration time and persisted — but the next poll does not treat
"any transaction" as new: a transaction timestamped at the registration
instant (hash different from the sentinel) is not classified as new. -/
theorem upsert_any_new_counterexample :
    add_tracked_address [] 7 "0xA" none (.ok (false, [])) 100
      = ([⟨7, "0xA", "0xA", "NO_TRANSACTIONS", 100⟩], true)
    ∧ isNew ⟨"NO_TRANSACTIONS", 100⟩ ⟨"H1", 100⟩ = false := by
  decide

/-- C6 (amended): when the seed feed request returns a non-success response,
registration still persists the row, seeded with the sentinel
`NO_TRANSACTIONS` hash and the current wall-clock time, so the next poll
treats as new exactly the transactions strictly later than the registration
instant; when the request raises, nothing is persisted and registration
reports failure. -/
theorem upsert_seed_on_feed_failure (store : Store) (user_id : Nat) (address : String)
    (label : Option String) (results : List (String × Nat)) (now : Nat) :
    (add_tracked_address store user_id address label (.ok (false, results)) now).2 = true
    ∧ (∃ lbl, (⟨user_id, address, lbl, "NO_TRANSACTIONS", now⟩ : Row)
        ∈ (add_tracked_address store user_id address label (.ok (false, results)) now).1)
    ∧ (∀ tx : Tx, now < tx.time → tx.transaction_hash ≠ "NO_TRANSACTIONS" →
        isNew ⟨"NO_TRANSACTIONS", now⟩ tx = true)
    ∧ add_tracked_address store user_id address label (.error ()) now = (store, false) := by
  refine ⟨rfl, ?_, ?_, rfl⟩
  · cases label with
    | none => exact ⟨address, by simp [add_tracked_address, upsertRow]⟩
    | some l =>
      by_cases hl : l = ""
      · exact ⟨address, by simp [add_tracked_address, upsertRow, hl]⟩
      · exact ⟨l, by simp [add_tracked_address, upsertRow, hl]⟩
  · intro tx h1 h2
    simp [isNew, h1, h2]

/-- C7: after a successful untrack matching a stored row (by address or by
label), the row no longer appears in the subscriber's listing, and a poller
checkpoint write for that row arriving after the removal updates exactly
zero rows and leaves the store unchanged (no resurrection).  `hkeys` is the
table's `PRIMARY KEY (user_id, address)` uniqueness. -/
theorem untrack_then_noop (store : Store) (user_id : Nat) (identifier : String) (r : Row)
    (hkeys : (store.map (fun q => (q.user_id, q.address))).Nodup)
    (hr : r ∈ store) (hu : r.user_id = user_id)
    (hm : r.address = identifier ∨ r.label = identifier) :
    (remove_tracked_address store user_id identifier).2 = true
    ∧ (r.address, r.label)
        ∉ list_tracked_addresses (remove_tracked_address store user_id identifier).1 user_id
    ∧ ∀ h t, advance_checkpoint (remove_tracked_address store user_id identifier).1
          user_id r.address h t
        = ((remove_tracked_address store user_id identifier).1, 0) := by
  have hmatch : removeMatches user_id identifier r = true := by
    rcases hm with hm | hm <;> simp [removeMatches, hu, hm]
  have hstore : (remove_tracked_address store user_id identifier).1
      = store.filter (fun q => !(removeMatches user_id identifier q)) := rfl
  have hnokey : ∀ q ∈ (remove_tracked_address store user_id identifier).1,
      (q.user_id == user_id && q.address == r.address) = false := by
    intro q hq
    rw [hstore, List.mem_filter] at hq
    obtain ⟨hqs, hqf⟩ := hq
    rw [Bool.not_eq_true'] at hqf
    by_contra hkey
    rw [Bool.not_eq_false, Bool.and_eq_true, beq_iff_eq, beq_iff_eq] at hkey
    obtain ⟨hqu, hqa⟩ := hkey
    rcases hm with hm | hm
    · rw [removeMatches, hqu, hqa, hm] at hqf
      simp at hqf
    · have hqr : q = r := by
        apply List.inj_on_of_nodup_map hkeys hqs hr
        simp only [hqu, hqa, hu]
      rw [hqr, hmatch] at hqf
      simp at hqf
  refine ⟨?_, ?_, ?_⟩
  · have hsnd : (remove_tracked_address store user_id identifier).2
        = decide (0 < (store.filter (removeMatches user_id identifier)).length) := rfl
    rw [hsnd, decide_eq_true_eq]
    exact List.length_pos.2 (List.ne_nil_of_mem (List.mem_filter.2 ⟨hr, hmatch⟩))
  · intro hmem
    unfold list_tracked_addresses at hmem
    obtain ⟨q, hq, heq⟩ := List.mem_map.1 hmem
    obtain ⟨hq1, hq2⟩ := List.mem_filter.1 hq
    have hqa : q.address = r.address := congrArg Prod.fst heq
    have hql : q.label = r.label := congrArg Prod.snd heq
    have hqf := (List.mem_filter.1 (hstore ▸ hq1)).2
    rw [Bool.not_eq_true'] at hqf
    have hqm : removeMatches user_id identifier q = true := by
      rcases hm with hm | hm
      · simp [removeMatches, hq2, hqa, hm]
      · simp [removeMatches, hq2, hql, hm]
    rw [hqm] at hqf
    simp at hqf
  · intro h t
    have hmap : ∀ l : Store, (∀ q ∈ l, (q.user_id == user_id && q.address == r.address) = false) →
        l.map (fun q => if q.user_id == user_id && q.address == r.address then
            { q with last_transaction_hash := h, last_transaction_time := t } else q) = l := by
      intro l hl
      induction l with
      | nil => rfl
      | cons a l2 ih =>
        rw [List.map_cons]
        rw [hl a (List.mem_cons_self a l2)]
        simp only [Bool.false_eq_true, if_false]
        rw [ih (fun q hq => hl q (List.mem_cons_of_mem a hq))]
    have hfil : (remove_tracked_address store user_id identifier).1.filter
        (fun q => q.user_id == user_id && q.address == r.address) = [] := by
      rw [List.filter_eq_nil_iff]
      intro q hq
      simp [hnokey q hq]
    unfold advance_checkpoint
    rw [hmap _ hnokey, hfil]
    rfl

/-- C7 witness: untracking the single row `(7, 0xA)` by its label succeeds,
per the theorem applied at that concrete store. -/
theorem untrack_then_noop_witness :
    (remove_tracked_address [⟨7, "0xA", "L", "h0", 0⟩] 7 "L").2 = true :=
  (untrack_then_noop [⟨7, "0xA", "L", "h0", 0⟩] 7 "L" ⟨7, "0xA", "L", "h0", 0⟩
    (by decide) (by decide) rfl (Or.inr rfl)).1

/-- C8: removal deletes exactly the rows of the subscriber whose address or
label equals the identifier, under exact case-sensitive string comparison,
and returns true iff at least one row was removed. -/
theorem remove_exact_match (store : Store) (user_id : Nat) (identifier : String) :
    (∀ r : Row, r ∈ (remove_tracked_address store user_id identifier).1 ↔
        r ∈ store ∧ ¬(r.user_id = user_id ∧ (r.address = identifier ∨ r.label = identifier)))
    ∧ ((remove_tracked_address store user_id identifier).2 = true ↔
        ∃ r ∈ store, r.user_id = user_id ∧ (r.address = identifier ∨ r.label = identifier)) := by
  constructor
  · intro r
    have hstore : (remove_tracked_address store user_id identifier).1
        = store.filter (fun q => !(removeMatches user_id identifier q)) := rfl
    rw [hstore, List.mem_filter]
    simp only [removeMatches, Bool.not_eq_true', Bool.and_eq_false_iff, beq_eq_false_iff_ne,
      ne_eq, Bool.or_eq_false_iff, not_and, not_or]
    tauto
  · have hsnd : (remove_tracked_address store user_id identifier).2
        = decide (0 < (store.filter (removeMatches user_id identifier)).length) := rfl
    rw [hsnd, decide_eq_true_eq, List.length_pos_iff_exists_mem]
    constructor
    · rintro ⟨q, hq⟩
      obtain ⟨hq1, hq2⟩ := List.mem_filter.1 hq
      refine ⟨q, hq1, ?_⟩
      simpa [removeMatches] using hq2
    · rintro ⟨q, hq1, hq2⟩
      refine ⟨q, List.mem_filter.2 ⟨hq1, ?_⟩⟩
      simpa [removeMatches] using hq2

/-- C10: the sweep's change detection for an address only examines the page
of the 20 most recent transactions, so at most 20 notifications per address
arise in one sweep, and a transaction of the history no longer among the 20
most recent is never delivered. -/
theorem page_window_bound (history : List Tx) (ok : Tx → Bool) (cp : Checkpoint) :
    (sweepAddress ok (feedPage history) cp).2.length ≤ 20
    ∧ ∀ tx : Tx, tx ∉ feedPage history → tx ∉ (sweepAddress ok (feedPage history) cp).2 := by
  constructor
  · have h1 : (sweepAddress ok (feedPage history) cp).2.length
        ≤ (newTransactions cp (feedPage history)).length := by
      rw [sweepAddress_snd]
      exact List.length_filter_le _ _
    have h2 : (newTransactions cp (feedPage history)).length
        = ((feedPage history).filter (isNew cp)).length :=
      (List.perm_insertionSort txLE _).length_eq
    have h3 : ((feedPage history).filter (isNew cp)).length ≤ (feedPage history).length :=
      List.length_filter_le _ _
    have h4 : (feedPage history).length ≤ 20 := List.length_take_le 20 history
    omega
  · intro tx hnot hmem
    exact hnot (sweepAddress_delivered_isNew ok (feedPage history) cp tx hmem).1

theorem containsStr_here2 (a v s : String) : ContainsStr (a ++ (v ++ s)) (a ++ v) := by
  refine ⟨[], s.data, ?_⟩
  simp [String.data_append, List.append_assoc]

/-- The body re-associated to the right, so containment proofs can walk the
chain segment by segment. -/
theorem txBody_eq (t : RawTx) : txBody t
    = "\n📅 Time: " ++ (format_time t.datetime
    ++ ("\n🔗 Transaction Hash: " ++ (t.transaction_hash
    ++ ("\n📤 From: " ++ (t.from_address
    ++ ("\n📥 To: " ++ (t.to_address
    ++ ("\n\nDetails:\n- Type: " ++ (t.transaction_type.getD "Unknown"
    ++ ("\n- Amount: " ++ (t.amount.getD "0"
    ++ (" KAIA\n- Transaction Fee: " ++ (t.transaction_fee.getD "0"
    ++ (" KAIA\n- Method: " ++ (t.signature.getD "N/A"
    ++ ("\n\nKaiascan Link: https://kaiascan.io/tx/" ++ (t.transaction_hash
    ++ "\n"))))))))))))))))) := by
  simp only [txBody, String.append_assoc]

set_option maxRecDepth 20000 in
/-- C9 counterexample: on a transaction without a `signature` field the
formatter renders the method line as `- Method: N/A` — the message contains
no "unknown" (or "Unknown") placeholder for the missing signature, refuting
the claimed placeholder; and a provided empty-string label produces no label
line. -/
theorem formatter_counterexample :
    ¬ ContainsStr (parse_transaction_details
        ⟨"0xabc", "2024-01-01T00:00:00Z", "0xS", "0xR",
          some "Legacy", some "1.5", some "0.01", none⟩ (some "cold")).1 "unknown"
    ∧ ¬ ContainsStr (parse_transaction_details
        ⟨"0xabc", "2024-01-01T00:00:00Z", "0xS", "0xR",
          some "Legacy", some "1.5", some "0.01", none⟩ (some "cold")).1 "Unknown"
    ∧ ContainsStr (parse_transaction_details
        ⟨"0xabc", "2024-01-01T00:00:00Z", "0xS", "0xR",
          some "Legacy", some "1.5", some "0.01", none⟩ (some "cold")).1 "- Method: N/A"
    ∧ ¬ ContainsStr (parse_transaction_details
        ⟨"0xabc", "2024-01-01T00:00:00Z", "0xS", "0xR",
          some "Legacy", some "1.5", some "0.01", none⟩ (some "")).1 "📍 Wallet: " := by
  decide

/-- C9 (amended): the formatter is a pure function of the transaction and
the optional label; its message contains the fixed header, the label line
when a nonempty label is provided, the timestamp rendered in UTC, the hash,
sender, recipient, kind, amount, fee, the method signature — with an "N/A"
placeholder when the signature field is absent — and a deep link built from
the hash. -/
theorem formatter_contents (transaction : RawTx) (label : Option String) :
    ContainsStr (parse_transaction_details transaction label).1
      "🚨 [New Transaction Detected] 🚨"
    ∧ (∀ l, label = some l → l ≠ "" →
        ContainsStr (parse_transaction_details transaction label).1 ("📍 Wallet: " ++ l))
    ∧ ContainsStr (parse_transaction_details transaction label).1
        ("\n📅 Time: " ++ format_time transaction.datetime)
    ∧ ContainsStr (parse_transaction_details transaction label).1
        ("\n🔗 Transaction Hash: " ++ transaction.transaction_hash)
    ∧ ContainsStr (parse_transaction_details transaction label).1
        ("\n📤 From: " ++ transaction.from_address)
    ∧ ContainsStr (parse_transaction_details transaction label).1
        ("\n📥 To: " ++ transaction.to_address)
    ∧ ContainsStr (parse_transaction_details transaction label).1
        ("\n\nDetails:\n- Type: " ++ transaction.transaction_type.getD "Unknown")
    ∧ ContainsStr (parse_transaction_details transaction label).1
        ("\n- Amount: " ++ transaction.amount.getD "0")
    ∧ ContainsStr (parse_transaction_details transaction label).1
        (" KAIA\n- Transaction Fee: " ++ transaction.transaction_fee.getD "0")
    ∧ ContainsStr (parse_transaction_details transaction label).1
        (" KAIA\n- Method: " ++ transaction.signature.getD "N/A")
    ∧ (transaction.signature = none →
        ContainsStr (parse_transaction_details transaction label).1 " KAIA\n- Method: N/A")
    ∧ ContainsStr (parse_transaction_details transaction label).1
        ("\n\nKaiascan Link: https://kaiascan.io/tx/"
          ++ (transaction.transaction_hash ++ "\n")) := by
  have hB1 : ContainsStr (txBody transaction)
      ("\n📅 Time: " ++ format_time transaction.datetime) := by
    rw [txBody_eq]
    exact containsStr_here2 _ _ _
  have hB2 : ContainsStr (txBody transaction)
      ("\n🔗 Transaction Hash: " ++ transaction.transaction_hash) := by
    rw [txBody_eq]
    exact containsStr_appR _ _ _ (containsStr_appR _ _ _ (containsStr_here2 _ _ _))
  have hB3 : ContainsStr (txBody transaction)
      ("\n📤 From: " ++ transaction.from_address) := by
    rw [txBody_eq]
    exact containsStr_appR _ _ _ (containsStr_appR _ _ _ (containsStr_appR _ _ _
      (containsStr_appR _ _ _ (containsStr_here2 _ _ _))))
  have hB4 : ContainsStr (txBody transaction)
      ("\n📥 To: " ++ transaction.to_address) := by
    rw [txBody_eq]
    exact containsStr_appR _ _ _ (containsStr_appR _ _ _ (containsStr_appR _ _ _
      (containsStr_appR _ _ _ (containsStr_appR _ _ _ (containsStr_appR _ _ _
        (containsStr_here2 _ _ _))))))
  have hB5 : ContainsStr (txBody transaction)
      ("\n\nDetails:\n- Type: " ++ transaction.transaction_type.getD "Unknown") := by
    rw [txBody_eq]
    exact containsStr_appR _ _ _ (containsStr_appR _ _ _ (containsStr_appR _ _ _
      (containsStr_appR _ _ _ (containsStr_appR _ _ _ (containsStr_appR _ _ _
        (containsStr_appR _ _ _ (containsStr_appR _ _ _ (containsStr_here2 _ _ _))))))))
  have hB6 : ContainsStr (txBody transaction)
      ("\n- Amount: " ++ transaction.amount.getD "0") := by
    rw [txBody_eq]
    exact containsStr_appR _ _ _ (containsStr_appR _ _ _ (containsStr_appR _ _ _
      (containsStr_appR _ _ _ (containsStr_appR _ _ _ (containsStr_appR _ _ _
        (containsStr_appR _ _ _ (containsStr_appR _ _ _ (containsStr_appR _ _ _
          (containsStr_appR _ _ _ (containsStr_here2 _ _ _))))))))))
  have hB7 : ContainsStr (txBody transaction)
      (" KAIA\n- Transaction Fee: " ++ transaction.transaction_fee.getD "0") := by
    rw [txBody_eq]
    exact containsStr_appR _ _ _ (containsStr_appR _ _ _ (containsStr_appR _ _ _
      (containsStr_appR _ _ _ (containsStr_appR _ _ _ (containsStr_appR _ _ _
        (containsStr_appR _ _ _ (containsStr_appR _ _ _ (containsStr_appR _ _ _
          (containsStr_appR _ _ _ (containsStr_appR _ _ _ (containsStr_appR _ _ _
            (containsStr_here2 _ _ _))))))))))))
  have hB8 : ContainsStr (txBody transaction)
      (" KAIA\n- Method: " ++ transaction.signature.getD "N/A") := by
    rw [txBody_eq]
    exact containsStr_appR _ _ _ (containsStr_appR _ _ _ (containsStr_appR _ _ _
      (containsStr_appR _ _ _ (containsStr_appR _ _ _ (containsStr_appR _ _ _
        (containsStr_appR _ _ _ (containsStr_appR _ _ _ (containsStr_appR _ _ _
          (containsStr_appR _ _ _ (containsStr_appR _ _ _ (containsStr_appR _ _ _
            (containsStr_appR _ _ _ (containsStr_appR _ _ _
              (containsStr_here2 _ _ _))))))))))))))
  have hB9 : ContainsStr (txBody transaction)
      ("\n\nKaiascan Link: https://kaiascan.io/tx/"
        ++ (transaction.transaction_hash ++ "\n")) := by
    rw [txBody_eq]
    exact containsStr_appR _ _ _ (containsStr_appR _ _ _ (containsStr_appR _ _ _
      (containsStr_appR _ _ _ (containsStr_appR _ _ _ (containsStr_appR _ _ _
        (containsStr_appR _ _ _ (containsStr_appR _ _ _ (containsStr_appR _ _ _
          (containsStr_appR _ _ _ (containsStr_appR _ _ _ (containsStr_appR _ _ _
            (containsStr_appR _ _ _ (containsStr_appR _ _ _ (containsStr_appR _ _ _
              (containsStr_appR _ _ _ (containsStr_refl _))))))))))))))))
  obtain ⟨mid, hmsg, hmid⟩ : ∃ mid, (parse_transaction_details transaction label).1
      = ("🚨 [New Transaction Detected] 🚨" ++ "\n") ++ mid
      ∧ ∀ n, ContainsStr (txBody transaction) n → ContainsStr mid n := by
    cases label with
    | none => exact ⟨txBody transaction, rfl, fun n h => h⟩
    | some l =>
      by_cases hl : l = ""
      · refine ⟨txBody transaction, ?_, fun n h => h⟩
        simp [parse_transaction_details, hl, joinNL]
      · refine ⟨(("📍 Wallet: " ++ l) ++ "\n") ++ txBody transaction, ?_,
          fun n h => containsStr_appR _ _ n h⟩
        simp [parse_transaction_details, hl, joinNL]
  refine ⟨?_, ?_, ?_, ?_, ?_, ?_, ?_, ?_, ?_, ?_, ?_, ?_⟩
  · rw [hmsg]
    exact containsStr_appL _ _ _ (containsStr_self_app _ _)
  · intro l hEq hl
    subst hEq
    have hmsg2 : (parse_transaction_details transaction (some l)).1
        = ("🚨 [New Transaction Detected] 🚨" ++ "\n")
          ++ ((("📍 Wallet: " ++ l) ++ "\n") ++ txBody transaction) := by
      simp [parse_transaction_details, hl, joinNL]
    rw [hmsg2]
    exact containsStr_appR _ _ _ (containsStr_appL _ _ _ (containsStr_self_app _ _))
  · rw [hmsg]; exact containsStr_appR _ _ _ (hmid _ hB1)
  · rw [hmsg]; exact containsStr_appR _ _ _ (hmid _ hB2)
  · rw [hmsg]; exact containsStr_appR _ _ _ (hmid _ hB3)
  · rw [hmsg]; exact containsStr_appR _ _ _ (hmid _ hB4)
  · rw [hmsg]; exact containsStr_appR _ _ _ (hmid _ hB5)
  · rw [hmsg]; exact containsStr_appR _ _ _ (hmid _ hB6)
  · rw [hmsg]; exact containsStr_appR _ _ _ (hmid _ hB7)
  · rw [hmsg]; exact containsStr_appR _ _ _ (hmid _ hB8)
  · intro hnone
    rw [hmsg]
    have h1 : (" KAIA\n- Method: " ++ transaction.signature.getD "N/A")
        = " KAIA\n- Method: N/A" := by
      rw [hnone]
      rfl
    exact containsStr_appR _ _ _ (hmid _ (h1 ▸ hB8))
  · rw [hmsg]; exact containsStr_appR _ _ _ (hmid _ hB9)
